import Mathlib

/-!
Verification development for the replay-interception and breakpoint-coordination
engine of the temporal-workflow-debugger repository.

The repository ships a Python replayer adapter (module `replayer` /
`replayer_adapter_python`), example drivers under `example/python`, and
packaging.  The example drivers (`standalone_replay.py`, `vscode-replay.py`)
are translated here directly from their source.  The adapter module itself
(`replayer.py`, with `set_replay_mode`, `set_breakpoints`, `replay`,
`RunnerWorkerInterceptor` and the suspend/resume machinery) is only declared
and called by the files available here, so those parts are modelled from the
specification, as marked on each definition.
-/

namespace Replayer

/-- Modelled from the spec: `EventIndex` is an integer identifying a position
in the replayed history, 1-based, used as the breakpoint key.  The adapter
module `replayer.py` defining it is not available here. -/
abbrev EventIndex := Nat

/-- Modelled from the spec: `ReplayMode` is the two-valued configuration
{STANDALONE, IDE}, fixed for one replay session.  The adapter module
`replayer.py` defining it is not available here. -/
inductive ReplayMode
  | standalone
  | ide
deriving DecidableEq, Repr

/-- The live IDE signal when no IDE signal is present: no boundary has a
pending ad-hoc pause request. -/
def noIdeSignal : EventIndex → Bool := fun _ => false

/-- Modelled from the spec: the pause decision of the Replay Interceptor at a
task boundary: query the Breakpoint Registry for the index and, in IDE mode
only, additionally query the live external signal.  The adapter module
`replayer.py` implementing this is not available here. -/
def pauseRequested (mode : ReplayMode) (bps : List EventIndex)
    (ideSignal : EventIndex → Bool) (i : EventIndex) : Bool :=
  bps.contains i ||
    (match mode with
     | ReplayMode.ide => ideSignal i
     | ReplayMode.standalone => false)

/-- What the interception hook does at one task boundary: either it returns
immediately (the boundary is passed) or it suspends there. -/
inductive BoundaryAction
  | passed (i : EventIndex)
  | suspended (i : EventIndex)
deriving DecidableEq, Repr

/-- Modelled from the spec: the Replay Interceptor's `onTaskBoundary` hook:
if neither the registry nor the IDE signal requests a pause it returns
immediately, otherwise it suspends at the boundary.  The adapter module
`replayer.py` implementing it is not available here. -/
def onTaskBoundary (mode : ReplayMode) (bps : List EventIndex)
    (ideSignal : EventIndex → Bool) (i : EventIndex) : BoundaryAction :=
  if pauseRequested mode bps ideSignal i then BoundaryAction.suspended i
  else BoundaryAction.passed i

/-- Modelled from the spec: one replay session invokes the hook once per task
boundary of the replayed history, in the engine's order. -/
def runSession (mode : ReplayMode) (bps : List EventIndex)
    (ideSignal : EventIndex → Bool) (H : List EventIndex) : List BoundaryAction :=
  H.map (onTaskBoundary mode bps ideSignal)

/-- The indices at which a session actually suspended. -/
def suspendedIndices (mode : ReplayMode) (bps : List EventIndex)
    (ideSignal : EventIndex → Bool) (H : List EventIndex) : List EventIndex :=
  (runSession mode bps ideSignal H).filterMap fun a =>
    match a with
    | BoundaryAction.suspended i => some i
    | BoundaryAction.passed _ => none

lemma pauseRequested_noIdeSignal (mode : ReplayMode) (bps : List EventIndex)
    (i : EventIndex) : pauseRequested mode bps noIdeSignal i = bps.contains i := by
  cases mode <;> simp [pauseRequested, noIdeSignal]

/-- Modelled from the spec: a `SuspendToken` represents one paused task
boundary: it owns the boundary's `EventIndex` and the synchronization handle
used to release it.  The adapter module `replayer.py` defining it is not
available here. -/
structure SuspendToken where
  boundary : EventIndex
  handle : Nat
deriving DecidableEq, Repr

/-- A control event arriving on the debugger control channel: a resume signal
for a token, or an external cancellation of the session. -/
inductive ControlEvent
  | resumeEv (t : SuspendToken)
  | cancelEv
deriving DecidableEq, Repr

/-- How a blocked `suspend` call ends. -/
inductive SuspendOutcome
  | resumed
  | sessionCancelled
deriving DecidableEq, Repr

/-- Modelled from the spec: `suspend(token)` of the Suspend/Resume Coordinator
blocks the calling execution context, consuming the stream of control events,
until a matching `resume(token)` is issued or the session is cancelled; on
cancellation it fails with the SessionCancelled condition.  `none` means the
stream was exhausted with the suspend still blocked.  The adapter module
`replayer.py` implementing this is not available here. -/
def suspendAwait (t : SuspendToken) : List ControlEvent → Option SuspendOutcome
  | [] => none
  | e :: rest =>
    match e with
    | ControlEvent.cancelEv => some SuspendOutcome.sessionCancelled
    | ControlEvent.resumeEv u =>
      if u = t then some SuspendOutcome.resumed else suspendAwait t rest

/-- Modelled from the spec: the Coordinator's state holds the session's at
most one outstanding `SuspendToken` (owned exclusively by the Coordinator
between suspend and resume).  The adapter module `replayer.py` implementing
it is not available here. -/
structure CoordState where
  outstanding : Option SuspendToken
deriving DecidableEq, Repr

/-- Modelled from the spec: `resume(token)` releases the matching outstanding
token; it is a no-op if the token is already resumed or unknown.  It is a
total function: no error is raised on a stale or duplicate signal.  The
adapter module `replayer.py` implementing it is not available here. -/
def resume (s : CoordState) (t : SuspendToken) : CoordState :=
  match s.outstanding with
  | some u => if u = t then { outstanding := none } else s
  | none => s

end Replayer

/-- Claim C2: when a suspend on token `t` is outstanding (no matching resume
has arrived among the control events seen so far) and the session is then
cancelled, the suspend unblocks at that cancellation event — regardless of
anything arriving later — and fails with the SessionCancelled condition
rather than blocking forever. -/
theorem c2_cancel_unblocks_suspend (t : Replayer.SuspendToken)
    (pre post : List Replayer.ControlEvent)
    (h : Replayer.ControlEvent.resumeEv t ∉ pre) :
    Replayer.suspendAwait t (pre ++ Replayer.ControlEvent.cancelEv :: post)
      = some Replayer.SuspendOutcome.sessionCancelled := by
  induction pre with
  | nil => rfl
  | cons e rest ih =>
    cases e with
    | cancelEv => rfl
    | resumeEv u =>
      have hne : u ≠ t := by
        intro hu
        exact h (by simp [hu])
      have hrest : Replayer.ControlEvent.resumeEv t ∉ rest := by
        intro hr
        exact h (List.mem_cons_of_mem _ hr)
      simp [Replayer.suspendAwait, hne, ih hrest]

/-- Witness for C2: token (9, 0) outstanding, one stale resume for a
different token arrives, then the session is cancelled. -/
theorem c2_witness :
    Replayer.ControlEvent.resumeEv ⟨9, 0⟩
        ∉ [Replayer.ControlEvent.resumeEv ⟨3, 1⟩] ∧
    Replayer.suspendAwait ⟨9, 0⟩
        ([Replayer.ControlEvent.resumeEv ⟨3, 1⟩]
          ++ Replayer.ControlEvent.cancelEv :: [])
      = some Replayer.SuspendOutcome.sessionCancelled := by
  refine ⟨by decide, ?_⟩
  exact c2_cancel_unblocks_suspend ⟨9, 0⟩
    [Replayer.ControlEvent.resumeEv ⟨3, 1⟩] [] (by decide)

/-- Claim C5: resuming a token that is not currently outstanding (already
resumed, or unknown to the Coordinator) leaves the Coordinator's state
unchanged and raises no error, and a duplicate resume after a first resume of
the same token changes nothing (idempotence of duplicate signals). -/
theorem c5_resume_idempotent (s : Replayer.CoordState) (t : Replayer.SuspendToken) :
    (s.outstanding ≠ some t → Replayer.resume s t = s) ∧
    Replayer.resume (Replayer.resume s t) t = Replayer.resume s t := by
  constructor
  · intro h
    cases hs : s.outstanding with
    | none => simp [Replayer.resume, hs]
    | some u =>
      have hne : u ≠ t := by
        intro hu
        exact h (by simp [hs, hu])
      simp [Replayer.resume, hs, hne]
  · cases hs : s.outstanding with
    | none => simp [Replayer.resume, hs]
    | some u =>
      by_cases hu : u = t
      · simp [Replayer.resume, hs, hu]
      · simp [Replayer.resume, hs, hu]

/-- Witness for C5: the Coordinator holds token (1, 0) outstanding; resuming
the different token (2, 0) is a no-op, and the duplicate-resume equation holds
there as well. -/
theorem c5_witness :
    (Replayer.CoordState.mk (some ⟨1, 0⟩)).outstanding ≠ some ⟨2, 0⟩ ∧
    Replayer.resume (Replayer.CoordState.mk (some ⟨1, 0⟩)) ⟨2, 0⟩
      = Replayer.CoordState.mk (some ⟨1, 0⟩) ∧
    Replayer.resume (Replayer.resume (Replayer.CoordState.mk (some ⟨1, 0⟩)) ⟨2, 0⟩) ⟨2, 0⟩
      = Replayer.resume (Replayer.CoordState.mk (some ⟨1, 0⟩)) ⟨2, 0⟩ := by
  refine ⟨by decide, ?_, ?_⟩
  · exact (c5_resume_idempotent (Replayer.CoordState.mk (some ⟨1, 0⟩)) ⟨2, 0⟩).1 (by decide)
  · exact (c5_resume_idempotent (Replayer.CoordState.mk (some ⟨1, 0⟩)) ⟨2, 0⟩).2

/-- Claim C1: with no live IDE signal present, the interceptor suspends at
exactly the task boundaries of the history whose index is in the breakpoint
set, and at no other boundary; at a non-member index the hook returns
immediately (the boundary is passed, not suspended). -/
theorem c1_interceptor_suspends_exactly_breakpoints
    (mode : Replayer.ReplayMode) (S H : List Replayer.EventIndex) :
    Replayer.suspendedIndices mode S Replayer.noIdeSignal H
      = H.filter (fun i => S.contains i) ∧
    ∀ i : Replayer.EventIndex, S.contains i = false →
      Replayer.onTaskBoundary mode S Replayer.noIdeSignal i
        = Replayer.BoundaryAction.passed i := by
  constructor
  · induction H with
    | nil => rfl
    | cons i rest ih =>
      simp only [Replayer.suspendedIndices, Replayer.runSession, List.map_cons,
        List.filterMap_cons, List.filter_cons] at ih ⊢
      by_cases h : i ∈ S
      · simp [Replayer.onTaskBoundary, Replayer.pauseRequested_noIdeSignal, h, ih]
      · simp [Replayer.onTaskBoundary, Replayer.pauseRequested_noIdeSignal, h, ih]
  · intro i h
    have h' : i ∉ S := by simpa using h
    simp [Replayer.onTaskBoundary, Replayer.pauseRequested_noIdeSignal, h']

/-- Witness for C1 at a concrete session: breakpoints {2, 5}, history
boundaries [1, 2, 3, 4, 5], non-member index 3. -/
theorem c1_witness :
    ([2, 5] : List Replayer.EventIndex).contains 3 = false ∧
    Replayer.suspendedIndices Replayer.ReplayMode.standalone [2, 5]
        Replayer.noIdeSignal [1, 2, 3, 4, 5]
      = [1, 2, 3, 4, 5].filter (fun i => ([2, 5] : List Replayer.EventIndex).contains i) ∧
    Replayer.onTaskBoundary Replayer.ReplayMode.standalone [2, 5]
        Replayer.noIdeSignal 3 = Replayer.BoundaryAction.passed 3 := by
  refine ⟨by decide, ?_, ?_⟩
  · exact (c1_interceptor_suspends_exactly_breakpoints
      Replayer.ReplayMode.standalone [2, 5] [1, 2, 3, 4, 5]).1
  · exact (c1_interceptor_suspends_exactly_breakpoints
      Replayer.ReplayMode.standalone [2, 5] [1, 2, 3, 4, 5]).2 3 (by decide)

namespace Replayer

/-- Modelled from the spec: a session run against a time-varying Breakpoint
Registry.  `sched k` is the registry content in force when the k-th boundary
(0-based step count) is evaluated; the control source may have replaced or
mutated the set between steps.  Each boundary is evaluated by the interceptor
hook against the registry state of its own step.  The adapter module
`replayer.py` implementing the registry is not available here. -/
def runWithRegistrySchedule (sched : Nat → List EventIndex) :
    Nat → List EventIndex → List BoundaryAction
  | _, [] => []
  | k, i :: rest =>
    onTaskBoundary ReplayMode.standalone (sched k) noIdeSignal i
      :: runWithRegistrySchedule sched (k + 1) rest

lemma runWithRegistrySchedule_take_congr (s₁ s₂ : Nat → List EventIndex)
    (H : List EventIndex) : ∀ (k m : Nat),
    (∀ j, k ≤ j → j < k + m → s₁ j = s₂ j) →
    (runWithRegistrySchedule s₁ k H).take m = (runWithRegistrySchedule s₂ k H).take m := by
  induction H with
  | nil => intro k m _; rfl
  | cons i rest ih =>
    intro k m hagree
    cases m with
    | zero => rfl
    | succ m =>
      have hk : s₁ k = s₂ k := hagree k (Nat.le_refl k) (by omega)
      have htail := ih (k + 1) m (fun j hj₁ hj₂ => hagree j (by omega) (by omega))
      simp [runWithRegistrySchedule, hk, htail]

end Replayer

/-- Claim C4: the suspension decisions for the first `m` boundaries of a
session depend only on the registry contents in force while those boundaries
were evaluated: if a mutated or wholesale-replaced registry schedule agrees
with the original on every step below `m`, the evaluated prefix of length `m`
is unchanged — a boundary already passed is never retroactively paused. -/
theorem c4_breakpoint_mutation_not_retroactive
    (s₁ s₂ : Nat → List Replayer.EventIndex) (H : List Replayer.EventIndex)
    (m : Nat) (h : ∀ j, j < m → s₁ j = s₂ j) :
    (Replayer.runWithRegistrySchedule s₁ 0 H).take m
      = (Replayer.runWithRegistrySchedule s₂ 0 H).take m :=
  Replayer.runWithRegistrySchedule_take_congr s₁ s₂ H 0 m
    (fun j _ hj => h j (by omega))

/-- Witness for C4: history [1, 2, 3]; the registry starts as {2} and is
replaced by {5} from step 1 on, after boundary 1 has been evaluated; the
first evaluated boundary is unaffected. -/
theorem c4_witness :
    (∀ j, j < 1 → (fun _ => ([2] : List Replayer.EventIndex)) j
        = (fun k => if k = 0 then ([2] : List Replayer.EventIndex) else [5]) j) ∧
    (Replayer.runWithRegistrySchedule (fun _ => [2]) 0 [1, 2, 3]).take 1
      = (Replayer.runWithRegistrySchedule
          (fun k => if k = 0 then [2] else [5]) 0 [1, 2, 3]).take 1 := by
  have hagree : ∀ j, j < 1 → (fun _ => ([2] : List Replayer.EventIndex)) j
      = (fun k => if k = 0 then ([2] : List Replayer.EventIndex) else [5]) j := by
    intro j hj
    have hj0 : j = 0 := by omega
    simp [hj0]
  exact ⟨hagree, c4_breakpoint_mutation_not_retroactive
    (fun _ => [2]) (fun k => if k = 0 then [2] else [5]) [1, 2, 3] 1 hagree⟩

namespace Replayer

/-- The spec's error taxonomy for the core (§7): configuration, history
loading, cancellation, and engine failures surfaced to the caller of
`replay`. -/
inductive ReplayError
  | configurationError
  | historyNotFound
  | historyMalformed
  | sessionCancelled
  | engineReplayFailure
deriving DecidableEq, Repr

/-- Modelled from the spec: the external deterministic replay engine, a black
box specified only at its interface (§6): an initial state, a deterministic
per-event step, and a terminal result/error channel for the replayed
workflow. -/
structure Engine (σ ρ : Type) where
  init : σ
  step : σ → EventIndex → σ
  finish : σ → Except ReplayError ρ

/-- Modelled from the spec: a replay of a history by the unmodified external
engine, with no interceptor installed. -/
def engineReplay {σ ρ : Type} (E : Engine σ ρ) (H : List EventIndex) :
    Except ReplayError ρ :=
  E.finish (H.foldl E.step E.init)

/-- Modelled from the spec: the engine driving replay with the Replay
Interceptor registered: at every task boundary the hook is invoked, and the
engine then takes its own deterministic step; the interceptor never alters
the engine's state, only possibly suspends between steps.  The adapter module
`replayer.py` implementing the registration is not available here. -/
def interceptedRun {σ ρ : Type} (E : Engine σ ρ) (mode : ReplayMode)
    (bps : List EventIndex) (ideSignal : EventIndex → Bool) :
    List EventIndex → σ → σ × List BoundaryAction
  | [], s => (s, [])
  | i :: rest, s =>
    let a := onTaskBoundary mode bps ideSignal i
    let p := interceptedRun E mode bps ideSignal rest (E.step s i)
    (p.1, a :: p.2)

/-- Modelled from the spec: a full replay with the interceptor installed,
returning the engine's terminal result and the trace of boundary actions. -/
def interceptedReplay {σ ρ : Type} (E : Engine σ ρ) (mode : ReplayMode)
    (bps : List EventIndex) (ideSignal : EventIndex → Bool)
    (H : List EventIndex) : Except ReplayError ρ × List BoundaryAction :=
  let p := interceptedRun E mode bps ideSignal H E.init
  (E.finish p.1, p.2)

lemma interceptedRun_fst {σ ρ : Type} (E : Engine σ ρ) (mode : ReplayMode)
    (bps : List EventIndex) (ideSignal : EventIndex → Bool) :
    ∀ (H : List EventIndex) (s : σ),
      (interceptedRun E mode bps ideSignal H s).1 = H.foldl E.step s := by
  intro H
  induction H with
  | nil => intro s; rfl
  | cons i rest ih => intro s; simp [interceptedRun, ih]

lemma interceptedRun_snd_empty {σ ρ : Type} (E : Engine σ ρ)
    (ideSignal : EventIndex → Bool) :
    ∀ (H : List EventIndex) (s : σ),
      (interceptedRun E ReplayMode.standalone [] ideSignal H s).2
        = H.map BoundaryAction.passed := by
  intro H
  induction H with
  | nil => intro s; rfl
  | cons i rest ih =>
    intro s
    simp [interceptedRun, ih, onTaskBoundary, pauseRequested]

end Replayer

/-- Claim C6: replaying any valid history in standalone mode with an empty
breakpoint set suspends at no task boundary (every boundary is passed) and
returns a result identical to the result of replaying the same history with
the unmodified external engine, no interceptor installed. -/
theorem c6_empty_breakpoints_refines_engine {σ ρ : Type}
    (E : Replayer.Engine σ ρ) (ideSignal : Replayer.EventIndex → Bool)
    (H : List Replayer.EventIndex) :
    (Replayer.interceptedReplay E Replayer.ReplayMode.standalone [] ideSignal H).1
      = Replayer.engineReplay E H ∧
    (Replayer.interceptedReplay E Replayer.ReplayMode.standalone [] ideSignal H).2
      = H.map Replayer.BoundaryAction.passed := by
  constructor
  · simp [Replayer.interceptedReplay, Replayer.engineReplay,
      Replayer.interceptedRun_fst]
  · simp [Replayer.interceptedReplay, Replayer.interceptedRun_snd_empty]

namespace Replayer

/-- Modelled from the spec: the per-session breakpoint state the Replay
Driver owns: the Breakpoint Registry's contents and the at most one
outstanding `SuspendToken`.  The adapter module `replayer.py` holding this
state is not available here. -/
structure SessionState where
  registry : List EventIndex
  token : Option SuspendToken
deriving DecidableEq, Repr

/-- Modelled from the spec: the Replay Driver's `replay` entry point (§4.5):
resolve the history (which may fail with HistoryNotFound or HistoryMalformed),
drive the external engine with the interceptor registered against the
session's registry, surface the result or the failure, and in every case
clear the registry and invalidate any SuspendToken before returning.  The
adapter module `replayer.py` implementing `replay` is not available here. -/
def replayDriver {σ ρ : Type} (E : Engine σ ρ)
    (histLoad : Except ReplayError (List EventIndex)) (st : SessionState) :
    Except ReplayError ρ × SessionState :=
  match histLoad with
  | Except.error e => (Except.error e, { registry := [], token := none })
  | Except.ok H =>
    let p := interceptedReplay E ReplayMode.standalone st.registry noIdeSignal H
    (p.1, { registry := [], token := none })

end Replayer

/-- Claim C8: whatever `replay` returns — a workflow result, a history
loading failure, or an engine failure — the session state after it returns
has an empty Breakpoint Registry and no live SuspendToken: no breakpoint
state from the session remains observable. -/
theorem c8_replay_clears_session_state {σ ρ : Type} (E : Replayer.Engine σ ρ)
    (histLoad : Except Replayer.ReplayError (List Replayer.EventIndex))
    (st : Replayer.SessionState) :
    (Replayer.replayDriver E histLoad st).2.registry = [] ∧
    (Replayer.replayDriver E histLoad st).2.token = none := by
  cases histLoad with
  | error e => exact ⟨rfl, rfl⟩
  | ok H => exact ⟨rfl, rfl⟩

namespace Replayer

/-- An event of a session's coordination trace: a task boundary is observed,
a suspend call is entered for a boundary, or a resume is issued for it. -/
inductive TraceEvent
  | boundary (i : EventIndex)
  | suspendEntered (i : EventIndex)
  | resumeIssued (i : EventIndex)
deriving DecidableEq, Repr

/-- The index observed at a boundary-observation trace event, if any. -/
def boundaryIdx : TraceEvent → Option EventIndex
  | TraceEvent.boundary i => some i
  | TraceEvent.suspendEntered _ => none
  | TraceEvent.resumeIssued _ => none

/-- Modelled from the spec: the coordination trace of a standalone session
over a list of boundary indices, in the engine's order: each boundary is
observed; on a breakpoint hit the suspend call is entered and the standalone
breakpoint consumer later issues the matching resume, before the next
boundary is observed.  The adapter module `replayer.py` producing this
behavior is not available here. -/
def sessionTraceH (bps : List EventIndex) : List EventIndex → List TraceEvent
  | [] => []
  | i :: rest =>
    TraceEvent.boundary i
      :: (if bps.contains i
            then [TraceEvent.suspendEntered i, TraceEvent.resumeIssued i]
            else [])
        ++ sessionTraceH bps rest

/-- Modelled from the spec: the trace of one whole session whose history has
task boundaries at the 1-based, consecutively increasing indices 1..n (§3:
EventIndex is 1-based and strictly increasing within a session). -/
def sessionTrace (bps : List EventIndex) (n : Nat) : List TraceEvent :=
  sessionTraceH bps (List.range' 1 n)

/-- Checks a trace left to right against a count of entered-but-unresumed
suspends per index: a resume is legal only when such a suspend is pending. -/
def resumesSafe : List TraceEvent → (EventIndex → Nat) → Bool
  | [], _ => true
  | TraceEvent.boundary _ :: rest, pend => resumesSafe rest pend
  | TraceEvent.suspendEntered i :: rest, pend =>
    resumesSafe rest (fun j => if j = i then pend j + 1 else pend j)
  | TraceEvent.resumeIssued i :: rest, pend =>
    if 0 < pend i then
      resumesSafe rest (fun j => if j = i then pend j - 1 else pend j)
    else false

lemma sessionTraceH_observed (bps : List EventIndex) :
    ∀ H : List EventIndex, (sessionTraceH bps H).filterMap boundaryIdx = H := by
  intro H
  induction H with
  | nil => rfl
  | cons i rest ih =>
    by_cases h : bps.contains i = true
    · simp only [sessionTraceH, h, if_true, List.cons_append, List.nil_append]
      show (TraceEvent.boundary i :: TraceEvent.suspendEntered i
        :: TraceEvent.resumeIssued i :: sessionTraceH bps rest).filterMap boundaryIdx
          = i :: rest
      simp [boundaryIdx, ih]
    · simp only [Bool.not_eq_true] at h
      simp [sessionTraceH, h, boundaryIdx, ih]
      intro a ha
      exact absurd ha (by simpa using h)

lemma sessionTraceH_resumesSafe (bps : List EventIndex) :
    ∀ (H : List EventIndex) (pend : EventIndex → Nat),
      resumesSafe (sessionTraceH bps H) pend = true := by
  intro H
  induction H with
  | nil => intro pend; rfl
  | cons i rest ih =>
    intro pend
    by_cases h : bps.contains i = true
    · simp only [sessionTraceH, h, if_true, List.cons_append, List.nil_append]
      show resumesSafe
        (TraceEvent.boundary i :: TraceEvent.suspendEntered i
          :: TraceEvent.resumeIssued i :: sessionTraceH bps rest) pend = true
      show (if 0 < (if i = i then pend i + 1 else pend i) then
              resumesSafe (sessionTraceH bps rest)
                (fun j => if j = i then (if j = i then pend j + 1 else pend j) - 1
                          else (if j = i then pend j + 1 else pend j))
            else false) = true
      rw [if_pos (by simp)]
      exact ih _
    · simp only [Bool.not_eq_true] at h
      simp only [sessionTraceH, h, if_false, List.nil_append]
      exact ih pend

end Replayer

/-- Claim C7: in one session over a history with task boundaries 1..n, the
interceptor observes the boundaries exactly in the engine's order — the
1-based, strictly increasing sequence 1..n — and the trace never issues a
resume for a boundary that has no suspend entered and still pending, i.e. no
resume precedes its boundary's suspend call. -/
theorem c7_boundary_order_and_resume_discipline
    (bps : List Replayer.EventIndex) (n : Nat) :
    (Replayer.sessionTrace bps n).filterMap Replayer.boundaryIdx
      = List.range' 1 n ∧
    List.Pairwise (· < ·)
      ((Replayer.sessionTrace bps n).filterMap Replayer.boundaryIdx) ∧
    Replayer.resumesSafe (Replayer.sessionTrace bps n) (fun _ => 0) = true := by
  refine ⟨Replayer.sessionTraceH_observed bps _, ?_, ?_⟩
  · rw [Replayer.sessionTrace, Replayer.sessionTraceH_observed bps]
    exact List.pairwise_lt_range' 1 n
  · exact Replayer.sessionTraceH_resumesSafe bps _ _

namespace StandaloneExample

/-- The decoded shape of the history file's content, as far as
`load_workflow_history` in `example/python/standalone_replay.py` inspects it:
content that `json.load` cannot decode, a top-level JSON object (whose
optional `events` key holds the event list), a top-level JSON array, or any
other top-level JSON value (number, string, boolean, null). -/
inductive FileContent
  | undecodable
  | jdict (events : Option (List Nat))
  | jarray (len : Nat)
  | jother
deriving DecidableEq, Repr

/-- The state of the filesystem at the history file's path: absent, or
present with some content. -/
inductive FileState
  | absent
  | present (c : FileContent)
deriving DecidableEq, Repr

/-- The Python exceptions `load_workflow_history` and the example driver can
raise or catch; all are subclasses of `Exception`. -/
inductive PyError
  | fileNotFoundError
  | jsonDecodeError
  | attributeError
  | otherException
deriving DecidableEq, Repr

/-- Translated from `load_workflow_history` in
`example/python/standalone_replay.py`: if no file exists at the path it
raises FileNotFoundError, before opening or decoding anything; then
`json.load` runs, and undecodable content raises json.JSONDecodeError (the
except clause re-raises the same type); then the success-path print calls
`history_data.get('events', [])`, which succeeds for a dict (returning the
loaded data, whose events default to the empty list) but raises
AttributeError for any non-dict top-level value, an exception the function
does not catch. -/
def load_workflow_history (fs : FileState) : Except PyError (List Nat) :=
  match fs with
  | FileState.absent => Except.error PyError.fileNotFoundError
  | FileState.present FileContent.undecodable => Except.error PyError.jsonDecodeError
  | FileState.present (FileContent.jdict events) => Except.ok (events.getD [])
  | FileState.present (FileContent.jarray _) => Except.error PyError.attributeError
  | FileState.present FileContent.jother => Except.error PyError.attributeError

/-- A standalone session that first loads the history file and only then
replays it through the interceptor: when loading fails, the exception
propagates before a single task boundary is intercepted, so the boundary
action trace is empty. -/
def standaloneSessionActions (fs : FileState) (bps : List Replayer.EventIndex) :
    List Replayer.BoundaryAction :=
  match load_workflow_history fs with
  | Except.error _ => []
  | Except.ok events =>
    Replayer.runSession Replayer.ReplayMode.standalone bps Replayer.noIdeSignal events

/-- Which message branch of the example driver ran. -/
inductive DriverReport
  | successMsg
  | historyNotFoundMsg
  | replayFailedMsg
deriving DecidableEq, Repr

/-- Translated from `example_replay_with_breakpoints` in
`example/python/standalone_replay.py`: the try block configures options and
awaits `replay`; its outcome is the argument.  A FileNotFoundError is caught
by the first except clause, which prints the history-file hint; every other
Exception is caught by the final `except Exception` clause, which prints the
failure message; on success the success message is printed.  In all cases the
coroutine returns normally. -/
def example_replay_with_breakpoints (body : Except PyError Unit) :
    Except PyError DriverReport :=
  match body with
  | Except.ok _ => Except.ok DriverReport.successMsg
  | Except.error PyError.fileNotFoundError => Except.ok DriverReport.historyNotFoundMsg
  | Except.error _ => Except.ok DriverReport.replayFailedMsg

end StandaloneExample

/-- Claim C3: in standalone mode, loading the history raises
FileNotFoundError (HistoryNotFound) whenever the file is absent, and this
happens before any task boundary is intercepted, for every breakpoint set;
when the file exists but its content cannot be decoded it raises the distinct
json.JSONDecodeError (HistoryMalformed); the two exception kinds are never
equal. -/
theorem c3_standalone_history_errors (bps : List Replayer.EventIndex) :
    StandaloneExample.load_workflow_history StandaloneExample.FileState.absent
      = Except.error StandaloneExample.PyError.fileNotFoundError ∧
    StandaloneExample.standaloneSessionActions StandaloneExample.FileState.absent bps
      = [] ∧
    StandaloneExample.load_workflow_history
        (StandaloneExample.FileState.present StandaloneExample.FileContent.undecodable)
      = Except.error StandaloneExample.PyError.jsonDecodeError ∧
    StandaloneExample.PyError.fileNotFoundError
      ≠ StandaloneExample.PyError.jsonDecodeError := by
  exact ⟨rfl, rfl, rfl, by decide⟩

/-- Claim C9: an existing history file holding valid JSON whose top-level
value is an array (here of length 3) makes `load_workflow_history` raise
AttributeError — from calling `.get` on the parsed value — which is neither
FileNotFoundError nor json.JSONDecodeError, so it escapes the file-absent vs
content-undecodable taxonomy. -/
theorem c9_nondict_json_attribute_error :
    StandaloneExample.load_workflow_history
        (StandaloneExample.FileState.present (StandaloneExample.FileContent.jarray 3))
      = Except.error StandaloneExample.PyError.attributeError ∧
    StandaloneExample.PyError.attributeError
      ≠ StandaloneExample.PyError.fileNotFoundError ∧
    StandaloneExample.PyError.attributeError
      ≠ StandaloneExample.PyError.jsonDecodeError := by
  exact ⟨rfl, by decide, by decide⟩

/-- Claim C10: whatever the try block of `example_replay_with_breakpoints`
does — return normally or raise any Exception, including every failure
propagated by `replay` — the driver catches it, prints one of its messages,
and returns normally: no exception propagates to its caller. -/
theorem c10_example_driver_catches_all (body : Except StandaloneExample.PyError Unit) :
    ∃ r : StandaloneExample.DriverReport,
      StandaloneExample.example_replay_with_breakpoints body = Except.ok r := by
  cases body with
  | ok u => exact ⟨StandaloneExample.DriverReport.successMsg, rfl⟩
  | error e =>
    cases e with
    | fileNotFoundError => exact ⟨StandaloneExample.DriverReport.historyNotFoundMsg, rfl⟩
    | jsonDecodeError => exact ⟨StandaloneExample.DriverReport.replayFailedMsg, rfl⟩
    | attributeError => exact ⟨StandaloneExample.DriverReport.replayFailedMsg, rfl⟩
    | otherException => exact ⟨StandaloneExample.DriverReport.replayFailedMsg, rfl⟩
